import Mathlib

/-
Verification of the contract-graph resolution and caching layer of the
pooltogether v4 js client (src/src/PrizePool.ts and src/src/LinkedPrizePool.ts).

The embedding is a shallow one: the TypeScript classes become Lean structures,
the async methods become pure state-passing functions (a method that mutates
`this` returns the updated record next to its result), and the single-threaded
cooperative scheduler of the JavaScript runtime is made explicit where a claim
is about interleavings (a method body is split at its await points into a
synchronous part and a continuation).  The ethers / etherplex chain client is
an external collaborator and is modelled as a record of read functions; a
rejected promise is an `Except.error`.  Two pieces of instrumentation are
threaded through the pool handle state: `nextId` numbers freshly constructed
ethers `Contract` objects so that object identity can be talked about, and
`reads` counts the child-resolution reads (getToken / getTicket calls) that
have been issued, whether or not they succeeded.
-/

deriving instance DecidableEq for Except

namespace V4

/-- Contract type tags, from the ContractType enumeration referenced by the
source (constants module).  Both the tag used by PrizePool.ts
(ContractType.PrizePool) and the tag used by LinkedPrizePool.ts
(ContractType.YieldSourcePrizePool) are present. -/
inductive ContractType where
  | YieldSourcePrizePool
  | PrizePool
  | Token
  | Ticket
  | Other
deriving DecidableEq, Repr

/-- Contract metadata, the shape of entries of a contract list
(contract-list-schema Contract): chain id, address, type tag, and the optional
extensions.children array of child references.  `children = none` models a
descriptor whose extensions object has no children field. -/
structure ContractMeta where
  chainId : Nat
  address : String
  ctype : ContractType
  children : Option (List (Nat × String)) := none
deriving DecidableEq, Repr

/-- An ethers Contract handle.  `id` instruments object identity: each
`new Contract(...)` in the source allocates a fresh object, and two handles
built by different calls are different objects even when they wrap the same
address. -/
structure Handle where
  id : Nat
  chainId : Nat
  address : String
deriving DecidableEq, Repr

/-- The chain client (an ethers Provider or Signer together with the contract
call machinery), modelled as a record of read functions.  `networkId` is the
network the client is bound to.  `tokenOf` and `ticketOf` are the reads that
resolve the child addresses of a prize pool (getToken()/getTicket() in
PrizePool.ts, token()/ticket() in the etherplex batch of LinkedPrizePool.ts).
The remaining fields are the reads issued by the balance, TWAB, allowance and
delegate accessors; the first String argument is the address of the contract
the read is issued against. -/
structure Client where
  networkId : Nat
  tokenOf : String → Except Unit String
  ticketOf : String → Except Unit String
  balanceOf : String → String → Except Unit Nat
  getBalanceAt : String → String → Nat → Except Unit Nat
  allowance : String → String → String → Except Unit Nat
  delegateOf : String → String → Except Unit String

/-- The mutable per-deployment state of a PrizePool instance
(src/src/PrizePool.ts lines 26 to 34): chain id and address of the primary
contract plus the lazily filled tokenContract / ticketContract caches.
`nextId` and `reads` are the instrumentation described at the top of the
file. -/
structure PrizePool where
  chainId : Nat
  address : String
  tokenContract : Option Handle := none
  ticketContract : Option Handle := none
  nextId : Nat := 0
  reads : Nat := 0
deriving DecidableEq, Repr

/-- Error taxonomy of the accessors, from section 7 of the specification. -/
inductive PoolError where
  | invalidAddress
  | networkMismatch
  | resolutionFailure
deriving DecidableEq, Repr

/-- Modelled from the spec: utils validateAddress is not under src.  A
syntactically well-formed chain address (0x followed by 40 characters). -/
def isValidAddress (a : String) : Bool :=
  match a.data with
  | '0' :: 'x' :: rest => rest.length == 40
  | _ => false

/-! ### Child contract resolution (PrizePool.getTokenContract / getTicketContract)

getTokenContract (src/src/PrizePool.ts lines 237 to 258) is split at its one
await point: `tokenCacheCheck` is the synchronous part up to the await of
getAddress(), and `tokenResume` is the continuation that runs after the
getToken read has resolved. -/

/-- Cache check performed synchronously at the start of getTokenContract
(src/src/PrizePool.ts line 238). -/
def tokenCacheCheck (p : PrizePool) : Option Handle :=
  p.tokenContract

/-- Continuation of getTokenContract after the getToken read resolved with
`addr` (src/src/PrizePool.ts lines 244 to 257): build a fresh ethers Contract
for the token address and store it in the cache. -/
def tokenResume (p : PrizePool) (addr : String) : Handle × PrizePool :=
  let h : Handle := { id := p.nextId, chainId := p.chainId, address := addr }
  (h, { p with tokenContract := some h, nextId := p.nextId + 1, reads := p.reads + 1 })

/-- PrizePool.getTokenContract (src/src/PrizePool.ts lines 237 to 258) run by
a single caller: return the cached contract if present, otherwise issue one
getToken read against the primary contract, build the token handle, cache it
and return it.  A read that rejects still counts as an issued read. -/
def getTokenContract (cl : Client) (p : PrizePool) : Except PoolError Handle × PrizePool :=
  match tokenCacheCheck p with
  | some h => (Except.ok h, p)
  | none =>
    match cl.tokenOf p.address with
    | Except.ok addr =>
      let r := tokenResume p addr
      (Except.ok r.1, r.2)
    | Except.error _ => (Except.error PoolError.resolutionFailure, { p with reads := p.reads + 1 })

/-- Continuation of getTicketContract after the getTicket read resolved. -/
def ticketResume (p : PrizePool) (addr : String) : Handle × PrizePool :=
  let h : Handle := { id := p.nextId, chainId := p.chainId, address := addr }
  (h, { p with ticketContract := some h, nextId := p.nextId + 1, reads := p.reads + 1 })

/-- PrizePool.getTicketContract (src/src/PrizePool.ts lines 225 to 231).  The
body it delegates to, ContractWrapper.getAndSetEthersContract, is not under
src.  Modelled from the spec: resolveTicketHandle returns the cached ticket
handle if present; otherwise it issues a single getTicket read against the
primary contract, builds a ticket handle, stores it in the cache and returns
it (section 4.1). -/
def getTicketContract (cl : Client) (p : PrizePool) : Except PoolError Handle × PrizePool :=
  match p.ticketContract with
  | some h => (Except.ok h, p)
  | none =>
    match cl.ticketOf p.address with
    | Except.ok addr =>
      let r := ticketResume p addr
      (Except.ok r.1, r.2)
    | Except.error _ => (Except.error PoolError.resolutionFailure, { p with reads := p.reads + 1 })

/-- Two concurrent getTokenContract calls on one handle, interleaved by the
single-threaded cooperative scheduler (specification section 5): caller A runs
the synchronous cache check (src/src/PrizePool.ts line 238) and suspends at
the await of getAddress() (line 243); caller B then runs its own cache check,
still observing the cache that A has not yet written, and suspends at its own
read; the two reads settle in order and each caller resumes (lines 244 to
257), each constructing its own Contract object and writing the cache.  The
result pairs the two values the two callers receive. -/
def racedGetTokenContract (cl : Client) (p : PrizePool) :
    (Except PoolError Handle × Except PoolError Handle) × PrizePool :=
  match tokenCacheCheck p with
  | some h => ((Except.ok h, Except.ok h), p)
  | none =>
    match cl.tokenOf p.address, cl.tokenOf p.address with
    | Except.ok addrA, Except.ok addrB =>
      let rA := tokenResume p addrA
      let rB := tokenResume rA.2 addrB
      ((Except.ok rA.1, Except.ok rB.1), rB.2)
    | Except.ok addrA, Except.error _ =>
      let rA := tokenResume p addrA
      ((Except.ok rA.1, Except.error PoolError.resolutionFailure),
        { rA.2 with reads := rA.2.reads + 1 })
    | Except.error _, Except.ok addrB =>
      let rB := tokenResume { p with reads := p.reads + 1 } addrB
      ((Except.error PoolError.resolutionFailure, Except.ok rB.1), rB.2)
    | Except.error _, Except.error _ =>
      ((Except.error PoolError.resolutionFailure, Except.error PoolError.resolutionFailure),
        { p with reads := p.reads + 2 })

/-! ### Balance / TWAB / allowance / delegate accessors (PrizePool.ts) -/

/-- PrizePool.getUserTicketBalance (src/src/PrizePool.ts lines 95 to 102):
validate the address, validate the network of the active client (utils
validateSignerOrProviderNetwork is not under src; modelled from the spec,
section 4.1: the network id of the active chain client must equal the chainId
of the handle), resolve the ticket contract, then read balanceOf. -/
def getUserTicketBalance (cl : Client) (p : PrizePool) (u : String) :
    Except PoolError Nat × PrizePool :=
  if isValidAddress u then
    if cl.networkId = p.chainId then
      match getTicketContract cl p with
      | (Except.ok h, p1) =>
        match cl.balanceOf h.address u with
        | Except.ok v => (Except.ok v, p1)
        | Except.error _ => (Except.error PoolError.resolutionFailure, p1)
      | (Except.error e, p1) => (Except.error e, p1)
    else (Except.error PoolError.networkMismatch, p)
  else (Except.error PoolError.invalidAddress, p)

/-- PrizePool.getUserTicketTwabAt (src/src/PrizePool.ts lines 110 to 119):
validate address and network, resolve the ticket contract, then read
getBalanceAt(usersAddress, unixTimestamp). -/
def getUserTicketTwabAt (cl : Client) (p : PrizePool) (u : String) (ts : Nat) :
    Except PoolError Nat × PrizePool :=
  if isValidAddress u then
    if cl.networkId = p.chainId then
      match getTicketContract cl p with
      | (Except.ok h, p1) =>
        match cl.getBalanceAt h.address u ts with
        | Except.ok v => (Except.ok v, p1)
        | Except.error _ => (Except.error PoolError.resolutionFailure, p1)
      | (Except.error e, p1) => (Except.error e, p1)
    else (Except.error PoolError.networkMismatch, p)
  else (Except.error PoolError.invalidAddress, p)

/-- PrizePool.getUserTokenBalance (src/src/PrizePool.ts lines 126 to 133):
validate address and network, resolve the token contract, then read
balanceOf. -/
def getUserTokenBalance (cl : Client) (p : PrizePool) (u : String) :
    Except PoolError Nat × PrizePool :=
  if isValidAddress u then
    if cl.networkId = p.chainId then
      match getTokenContract cl p with
      | (Except.ok h, p1) =>
        match cl.balanceOf h.address u with
        | Except.ok v => (Except.ok v, p1)
        | Except.error _ => (Except.error PoolError.resolutionFailure, p1)
      | (Except.error e, p1) => (Except.error e, p1)
    else (Except.error PoolError.networkMismatch, p)
  else (Except.error PoolError.invalidAddress, p)

/-- PrizePool.getUserDepositAllowance (src/src/PrizePool.ts lines 140 to 150):
validate address and network, resolve the token contract, read
allowance(usersAddress, prizePoolAddress) on it with the address of the
primary pool of this very handle as the spender, and return the raw amount
together with isApproved, the negation of isZero. -/
def getUserDepositAllowance (cl : Client) (p : PrizePool) (u : String) :
    Except PoolError (Nat × Bool) × PrizePool :=
  if isValidAddress u then
    if cl.networkId = p.chainId then
      match getTokenContract cl p with
      | (Except.ok h, p1) =>
        match cl.allowance h.address u p.address with
        | Except.ok v => (Except.ok (v, !(v == 0)), p1)
        | Except.error _ => (Except.error PoolError.resolutionFailure, p1)
      | (Except.error e, p1) => (Except.error e, p1)
    else (Except.error PoolError.networkMismatch, p)
  else (Except.error PoolError.invalidAddress, p)

/-- PrizePool.getUserTicketDelegate (src/src/PrizePool.ts lines 157 to 164):
validate the address, resolve the ticket contract, then read
delegateOf(usersAddress).  Note that, unlike every sibling accessor, the
source performs no validateSignerOrProviderNetwork call here. -/
def getUserTicketDelegate (cl : Client) (p : PrizePool) (u : String) :
    Except PoolError String × PrizePool :=
  if isValidAddress u then
    match getTicketContract cl p with
    | (Except.ok h, p1) =>
      match cl.delegateOf h.address u with
      | Except.ok d => (Except.ok d, p1)
      | Except.error _ => (Except.error PoolError.resolutionFailure, p1)
    | (Except.error e, p1) => (Except.error e, p1)
  else (Except.error PoolError.invalidAddress, p)

/-! ### Concrete fixtures used by counterexamples and witnesses -/

/-- A well-formed 42 character user address. -/
def addrU : String := "0xaaaaaaaaaaaaaaaaaaaaaaaaaaaaaaaaaaaaaaaa"

/-- A chain client on network 1 whose reads all succeed. -/
def testClient : Client where
  networkId := 1
  tokenOf := fun _ => Except.ok "0xTOK"
  ticketOf := fun _ => Except.ok "0xTIC"
  balanceOf := fun _ _ => Except.ok 5
  getBalanceAt := fun _ _ _ => Except.ok 7
  allowance := fun _ _ _ => Except.ok 3
  delegateOf := fun _ _ => Except.ok "0xDEL"

/-- A pool handle on network 1 with both caches empty. -/
def pEmpty : PrizePool where
  chainId := 1
  address := "0xPP1"

/-- A pool handle on network 1 whose token cache is already populated. -/
def pTokenCached : PrizePool where
  chainId := 1
  address := "0xPP1"
  tokenContract := some ⟨0, 1, "0xTOK"⟩
  nextId := 1
  reads := 1

/-- A pool handle on network 1 whose ticket cache is already populated. -/
def pTicketCached : PrizePool where
  chainId := 1
  address := "0xPP1"
  ticketContract := some ⟨0, 1, "0xTIC"⟩
  nextId := 1
  reads := 1

/-- A client like testClient whose getToken read always rejects. -/
def failTokenClient : Client :=
  { testClient with tokenOf := fun _ => Except.error () }

/-- A client like testClient whose historical balance read always reverts. -/
def twabFailClient : Client :=
  { testClient with getBalanceAt := fun _ _ _ => Except.error () }

/-- A client bound to network 2, mismatching the network 1 handles above. -/
def mmClient : Client :=
  { testClient with networkId := 2 }

/-! ### Helper lemmas about resolution and accessor state -/

theorem getTokenContract_of_cached {cl : Client} {p : PrizePool} {h : Handle}
    (hc : p.tokenContract = some h) : getTokenContract cl p = (Except.ok h, p) := by
  simp [getTokenContract, tokenCacheCheck, hc]

theorem getTicketContract_of_cached {cl : Client} {p : PrizePool} {h : Handle}
    (hc : p.ticketContract = some h) : getTicketContract cl p = (Except.ok h, p) := by
  simp [getTicketContract, hc]

theorem getTokenContract_reads (cl : Client) (p : PrizePool) :
    (getTokenContract cl p).2.reads ≤ p.reads + 1 := by
  unfold getTokenContract tokenCacheCheck tokenResume
  cases hp : p.tokenContract with
  | some h => simp
  | none =>
    cases ht : cl.tokenOf p.address with
    | ok a => simp
    | error e => simp

theorem getUserTokenBalance_state_of_cached {cl : Client} {p : PrizePool} {u : String}
    {h : Handle} (hc : p.tokenContract = some h) : (getUserTokenBalance cl p u).2 = p := by
  by_cases hv : isValidAddress u = true
  · by_cases hn : cl.networkId = p.chainId
    · cases hb : cl.balanceOf h.address u <;>
        simp [getUserTokenBalance, hv, hn, getTokenContract_of_cached hc, hb]
    · simp [getUserTokenBalance, hv, hn]
  · simp [getUserTokenBalance, hv]

theorem getUserTokenBalance_state_cases (cl : Client) (p : PrizePool) (u : String) :
    (getUserTokenBalance cl p u).2 = p ∨
      (getUserTokenBalance cl p u).2 = (getTokenContract cl p).2 := by
  by_cases hv : isValidAddress u = true
  · by_cases hn : cl.networkId = p.chainId
    · rcases hg : getTokenContract cl p with ⟨r, p1⟩
      cases r with
      | ok h =>
        cases hb : cl.balanceOf h.address u <;> simp [getUserTokenBalance, hv, hn, hg, hb]
      | error e => simp [getUserTokenBalance, hv, hn, hg]
    · simp [getUserTokenBalance, hv, hn]
  · simp [getUserTokenBalance, hv]

theorem getTokenContract_populates {cl : Client} {p : PrizePool} {h : Handle} {p1 : PrizePool}
    (hg : getTokenContract cl p = (Except.ok h, p1)) : p1.tokenContract = some h := by
  unfold getTokenContract tokenCacheCheck at hg
  cases hp : p.tokenContract with
  | some h0 =>
    rw [hp] at hg
    simp at hg
    rw [← hg.2, hp, hg.1]
  | none =>
    rw [hp] at hg
    cases ht : cl.tokenOf p.address with
    | ok a => rw [ht] at hg; simp [tokenResume] at hg; simp [← hg.2, ← hg.1, tokenResume]
    | error e => rw [ht] at hg; simp at hg

/-! ### Claim C1 -/

/-- Claim C1 counterexample: on a handle with no cached token handle, two
accessor driven getTokenContract calls that race before the first resolution
completes issue two child-resolution reads against the chain client, not one,
and the two callers receive two distinct Contract objects (ids 0 and 1): the
source has no in-flight resolution guard. -/
theorem raced_resolution_issues_two_reads_cex :
    (racedGetTokenContract testClient pEmpty).1.1 = Except.ok ⟨0, 1, "0xTOK"⟩ ∧
    (racedGetTokenContract testClient pEmpty).1.2 = Except.ok ⟨1, 1, "0xTOK"⟩ ∧
    (⟨0, 1, "0xTOK"⟩ : Handle) ≠ ⟨1, 1, "0xTOK"⟩ ∧
    (racedGetTokenContract testClient pEmpty).2.reads = 2 := by
  decide

/-- Claim C1 (corrected): on a handle with no cached token handle, two
concurrent accessor calls racing before the first resolution completes both
resolve, and both receive a handle wrapping the same resolved token address,
but each issues its own child-resolution read (two reads total) and the two
handle objects are distinct; the cache ends up holding the handle built by the
second caller.  There is no at-most-one-in-flight-resolution guard. -/
theorem raced_resolution_amended (cl : Client) (p : PrizePool) (a : String)
    (hc : p.tokenContract = none) (hr : cl.tokenOf p.address = Except.ok a) :
    (racedGetTokenContract cl p).1.1 = Except.ok ⟨p.nextId, p.chainId, a⟩ ∧
    (racedGetTokenContract cl p).1.2 = Except.ok ⟨p.nextId + 1, p.chainId, a⟩ ∧
    (⟨p.nextId, p.chainId, a⟩ : Handle) ≠ ⟨p.nextId + 1, p.chainId, a⟩ ∧
    (racedGetTokenContract cl p).2.reads = p.reads + 2 ∧
    (racedGetTokenContract cl p).2.tokenContract = some ⟨p.nextId + 1, p.chainId, a⟩ := by
  refine ⟨?_, ?_, ?_, ?_, ?_⟩ <;>
    simp [racedGetTokenContract, tokenCacheCheck, hc, hr, tokenResume, Handle.mk.injEq]

theorem raced_resolution_amended_witness :
    (racedGetTokenContract testClient pEmpty).1.1 = Except.ok ⟨0, 1, "0xTOK"⟩ ∧
    (racedGetTokenContract testClient pEmpty).1.2 = Except.ok ⟨1, 1, "0xTOK"⟩ ∧
    (⟨0, 1, "0xTOK"⟩ : Handle) ≠ ⟨1, 1, "0xTOK"⟩ ∧
    (racedGetTokenContract testClient pEmpty).2.reads = 2 ∧
    (racedGetTokenContract testClient pEmpty).2.tokenContract = some ⟨1, 1, "0xTOK"⟩ :=
  raced_resolution_amended testClient pEmpty "0xTOK" rfl rfl

/-! ### Claim C3 -/

/-- Claim C3 counterexample: two sequential getUserTokenBalance calls with no
intervening cache invalidation issue two child-resolution reads when the first
resolution read rejects (the failed call leaves the cache empty, so the second
call issues a fresh getToken read). -/
theorem sequential_retry_after_failure_cex :
    (getUserTokenBalance failTokenClient
        (getUserTokenBalance failTokenClient pEmpty addrU).2 addrU).2.reads = 2 ∧
    pEmpty.reads = 0 := by
  decide

/-- Claim C3 (corrected): a single accessor call issues at most one
child-resolution read; once the cached token handle is populated an accessor
call leaves the handle state (cache and read count) completely unchanged, so
two sequential calls issue at most one resolution read provided the first
resolution succeeded.  If the first resolution read fails the cache stays
empty and a later call issues a new read. -/
theorem cached_resolution_idempotent (cl : Client) (p : PrizePool) (u : String) :
    (getUserTokenBalance cl p u).2.reads ≤ p.reads + 1 ∧
    (∀ h, p.tokenContract = some h → (getUserTokenBalance cl p u).2 = p) ∧
    ((getUserTokenBalance cl p u).2.tokenContract.isSome = true →
      (getUserTokenBalance cl ((getUserTokenBalance cl p u).2) u).2 =
        (getUserTokenBalance cl p u).2) := by
  refine ⟨?_, ?_, ?_⟩
  · rcases getUserTokenBalance_state_cases cl p u with hs | hs
    · rw [hs]; omega
    · rw [hs]; exact getTokenContract_reads cl p
  · intro h hc
    exact getUserTokenBalance_state_of_cached hc
  · intro hs
    rcases ho : (getUserTokenBalance cl p u).2.tokenContract with _ | h
    · rw [ho] at hs; simp at hs
    · exact getUserTokenBalance_state_of_cached ho

theorem cached_resolution_idempotent_witness :
    (getUserTokenBalance testClient pTokenCached addrU).2 = pTokenCached :=
  (cached_resolution_idempotent testClient pTokenCached addrU).2.1 ⟨0, 1, "0xTOK"⟩ rfl

/-! ### Claim C5 -/

/-- Claim C5 (code bug): getUserTicketDelegate validates the target address
but, unlike every sibling accessor, performs no network validation: on a
client bound to network 2 and a handle declared on network 1 it resolves the
ticket contract (issuing a chain read, reads = 1) and returns the delegate,
while getUserTicketBalance on the same input fails with networkMismatch
before issuing any read (reads still 0). -/
theorem delegate_missing_network_check :
    mmClient.networkId ≠ pEmpty.chainId ∧
    isValidAddress addrU = true ∧
    (getUserTicketDelegate mmClient pEmpty addrU).1 = Except.ok "0xDEL" ∧
    (getUserTicketDelegate mmClient pEmpty addrU).2.reads = 1 ∧
    (getUserTicketBalance mmClient pEmpty addrU).1 = Except.error PoolError.networkMismatch ∧
    (getUserTicketBalance mmClient pEmpty addrU).2.reads = 0 := by
  decide

/-! ### Claim C6 -/

/-- Claim C6 (confirmed): on a handle whose ticket handle is already resolved
and cached, a failing historical-balance read in getUserTicketTwabAt surfaces
resolutionFailure and leaves the handle state, in particular the populated
ticket cache, exactly as it was. -/
theorem twab_failure_preserves_cache (cl : Client) (p : PrizePool) (u : String) (ts : Nat)
    (h : Handle) (hc : p.ticketContract = some h) (hv : isValidAddress u = true)
    (hn : cl.networkId = p.chainId) (hf : cl.getBalanceAt h.address u ts = Except.error ()) :
    getUserTicketTwabAt cl p u ts = (Except.error PoolError.resolutionFailure, p) ∧
    (getUserTicketTwabAt cl p u ts).2.ticketContract = some h := by
  have hmain : getUserTicketTwabAt cl p u ts = (Except.error PoolError.resolutionFailure, p) := by
    simp [getUserTicketTwabAt, hv, hn, getTicketContract_of_cached hc, hf]
  exact ⟨hmain, by rw [hmain]; exact hc⟩

theorem twab_failure_preserves_cache_witness :
    getUserTicketTwabAt twabFailClient pTicketCached addrU 1700000000 =
      (Except.error PoolError.resolutionFailure, pTicketCached) ∧
    (getUserTicketTwabAt twabFailClient pTicketCached addrU 1700000000).2.ticketContract =
      some ⟨0, 1, "0xTIC"⟩ :=
  twab_failure_preserves_cache twabFailClient pTicketCached addrU 1700000000
    ⟨0, 1, "0xTIC"⟩ rfl (by decide) rfl rfl

/-! ### Claim C10 -/

/-- Claim C10 (confirmed): for a well-formed user address on a handle whose
reads succeed, getUserDepositAllowance reads allowance(usersAddress,
prizePoolAddress) on the resolved token contract, with the address of the
primary pool of this very handle as the spender, and returns isApproved true
exactly when the returned allowance is nonzero. -/
theorem deposit_allowance_correct (cl : Client) (p : PrizePool) (u : String)
    (h : Handle) (p1 : PrizePool) (v : Nat)
    (hv : isValidAddress u = true) (hn : cl.networkId = p.chainId)
    (hres : getTokenContract cl p = (Except.ok h, p1))
    (hal : cl.allowance h.address u p.address = Except.ok v) :
    getUserDepositAllowance cl p u = (Except.ok (v, !(v == 0)), p1) ∧
    ((!(v == 0)) = true ↔ v ≠ 0) := by
  constructor
  · simp [getUserDepositAllowance, hv, hn, hres, hal]
  · simp

/-- The post-resolution state of pEmpty after a successful token resolution
against testClient. -/
def pTokAfter : PrizePool where
  chainId := 1
  address := "0xPP1"
  tokenContract := some ⟨0, 1, "0xTOK"⟩
  nextId := 1
  reads := 1

theorem deposit_allowance_correct_witness :
    getUserDepositAllowance testClient pEmpty addrU = (Except.ok (3, true), pTokAfter) ∧
    ((!((3 : Nat) == 0)) = true ↔ (3 : Nat) ≠ 0) :=
  deposit_allowance_correct testClient pEmpty addrU ⟨0, 1, "0xTOK"⟩ pTokAfter 3
    (by decide) rfl (by decide) rfl

/-! ## Linked prize pool assembly (src/src/LinkedPrizePool.ts) -/

/-- One encoded call of a per-network batch: the target prize pool address and
which of the two child accessors is read.  The etherplex batch of
fetchPrizePoolAddressesByChainId encodes token() and ticket() for every prize
pool of the network (src/src/LinkedPrizePool.ts lines 171 to 180). -/
inductive ReadMethod where
  | token
  | ticket
deriving DecidableEq, Repr

/-- The call list of the per-network batch: two calls per prize pool, token
address then ticket address (src/src/LinkedPrizePool.ts lines 172 to 180). -/
def batchCallsFor (pools : List ContractMeta) : List (String × ReadMethod) :=
  pools.flatMap (fun c => [(c.address, ReadMethod.token), (c.address, ReadMethod.ticket)])

/-- Decode of one encoded call by the chain client. -/
def execCall (cl : Client) : String × ReadMethod → Except Unit String
  | (a, ReadMethod.token) => cl.tokenOf a
  | (a, ReadMethod.ticket) => cl.ticketOf a

/-- Sequencing of fallible steps: the whole computation fails as soon as one
step fails (the all-or-nothing settlement of one multicall round trip, and
likewise an uncaught throw inside an array map). -/
def mapME {α β ε : Type} (f : α → Except ε β) : List α → Except ε (List β)
  | [] => Except.ok []
  | x :: xs =>
    match f x with
    | Except.error e => Except.error e
    | Except.ok b =>
      match mapME f xs with
      | Except.error e => Except.error e
      | Except.ok bs => Except.ok (b :: bs)

/-- One batched read: a single round trip encoding the whole call list; a
transport error or a failing call fails the batch as a whole (specification
section 6 batchCall and section 4.3 state machine: no partial success within
one network batch). -/
def batchRead (cl : Client) (calls : List (String × ReadMethod)) : Except Unit (List String) :=
  mapME (execCall cl) calls

/-- Pair the batch results back up with the prize pools of the request, two
results per pool, keyed by the pool address
(src/src/LinkedPrizePool.ts lines 182 to 189). -/
def pairAddresses : List ContractMeta → List String → List (String × String × String)
  | p :: ps, t :: k :: rest => (p.address, t, k) :: pairAddresses ps rest
  | _, _ => []

/-- fetchPrizePoolAddressesByChainId (src/src/LinkedPrizePool.ts lines 166 to
191): issue one batched read with two calls per prize pool of the network and
map every prize pool address to its token and ticket addresses.  A missing
provider for the chain makes the batch reject (the source reads
providers[chainId] unchecked at line 120). -/
def fetchPrizePoolAddresses (cid : Nat) (provider : Option Client)
    (pools : List ContractMeta) : Except Unit (Nat × List (String × String × String)) :=
  match provider with
  | none => Except.error ()
  | some cl =>
    match batchRead cl (batchCallsFor pools) with
    | Except.error _ => Except.error ()
    | Except.ok results => Except.ok (cid, pairAddresses pools results)

/-- Modelled from the spec: utils getContractsByType is not under src; filters
the registry to the descriptors carrying the given type tag (section 4.3
step 1). -/
def getContractsByType (xs : List ContractMeta) (t : ContractType) : List ContractMeta :=
  xs.filter (fun c => c.ctype = t)

/-- Modelled from the spec: utils sortContractsByChainId is not under src; the
key set of the partition of the descriptors by networkId (section 4.3 step 1).
Duplicate keys are collapsed; the claims under proof do not depend on the
iteration order of the keys. -/
def dedupNat : List Nat → List Nat
  | [] => []
  | c :: rest => if c ∈ dedupNat rest then dedupNat rest else c :: dedupNat rest

/-- The prize pool descriptors of one network. -/
def poolsOnChain (prims : List ContractMeta) (c : Nat) : List ContractMeta :=
  prims.filter (fun d => d.chainId = c)

/-- First entry for a chain id in an association list (JavaScript object
lookup by numeric key). -/
def lookupChain {α : Type} (xs : List (Nat × α)) (c : Nat) : Option α :=
  (xs.find? (fun e => e.1 = c)).map (fun e => e.2)

/-- Fulfilled value of a settled promise, none when it rejected. -/
def exceptOk {ε α : Type} : Except ε α → Option α
  | Except.ok a => some a
  | Except.error _ => none

/-- True exactly when the computation succeeded. -/
def isOkE {ε α : Type} : Except ε α → Bool
  | Except.ok _ => true
  | Except.error _ => false

/-- Modelled from the spec: utils extendContractWithChildren is not under src.
Per section 4.3 steps 3 and 6: the discovered token and ticket pair of each
prize pool whose network batch succeeded is recorded as the declared children
of that primary descriptor; the deployments of a network whose batch failed
are excluded from the augmented registry; non-primary descriptors pass
through. -/
def childrenFor (byChain : List (Nat × List (String × String × String)))
    (d : ContractMeta) : Option ContractMeta :=
  match lookupChain byChain d.chainId with
  | none => none
  | some entries =>
    match entries.find? (fun e => e.1 = d.address) with
    | none => none
    | some e => some { d with children := some [(d.chainId, e.2.1), (d.chainId, e.2.2)] }

/-- The whole-registry augmentation: a primary descriptor is kept (with its
discovered children recorded) exactly when its network batch delivered its
pair; other descriptors pass through. -/
def extendContractWithChildren (contracts : List ContractMeta)
    (byChain : List (Nat × List (String × String × String))) : List ContractMeta :=
  contracts.filterMap (fun d =>
    if d.ctype = ContractType.YieldSourcePrizePool then childrenFor byChain d else some d)

/-- createTokenContract (src/src/LinkedPrizePool.ts lines 216 to 230): the
synthesized descriptor for a discovered child address, type tag Token, an
extensions object with no children field. -/
def createTokenContract (cid : Nat) (addr : String) : ContractMeta :=
  { chainId := cid, address := addr, ctype := ContractType.Token, children := none }

/-- extendContractsWithToken (src/src/LinkedPrizePool.ts lines 198 to 214):
start from a copy of the descriptor list, collect the declared children of
every descriptor that has some, and for each collected child reference push a
synthesized Token descriptor onto the copy when no descriptor with that
address and chain id exists in the original input list.  Note that the
duplicate check at lines 206 to 208 searches the original `contracts` array,
not the list being extended. -/
def tokenStep (contracts : List ContractMeta) (acc : List ContractMeta)
    (tk : Nat × String) : List ContractMeta :=
  match contracts.find? (fun c => c.address = tk.2 ∧ c.chainId = tk.1) with
  | some _ => acc
  | none => acc ++ [createTokenContract tk.1 tk.2]

/-- The forEach loop over the collected child references
(src/src/LinkedPrizePool.ts lines 205 to 212), one tokenStep per reference,
starting from the copy of the input made at line 199. -/
def extendContractsWithToken (contracts : List ContractMeta) : List ContractMeta :=
  let tokens := (contracts.filter (fun c => c.children.isSome)).flatMap (fun c => c.children.getD [])
  tokens.foldl (tokenStep contracts) contracts

/-- Modelled from the spec: utils sortContractsByContractTypeAndChildren is
not under src.  Per section 4.2: one group per descriptor tagged with the
given type, in input order, holding the primary descriptor together with the
descriptors referenced by its declared children. -/
def sortContractsByContractTypeAndChildren (contracts : List ContractMeta)
    (t : ContractType) : List (List ContractMeta) :=
  (contracts.filter (fun c => c.ctype = t)).map (fun p =>
    p :: (p.children.getD []).filterMap (fun tk =>
      contracts.find? (fun c => c.chainId = tk.1 ∧ c.address = tk.2)))

/-- The PrizePool constructor (src/src/PrizePool.ts lines 43 to 65): caches
start empty (lines 58 to 64).  The body of the ContractWrapper super
constructor is not under src; modelled from the spec, section 3: a missing
network client key is a construction-time error for that deployment. -/
def mkPrizePool (provider : Option Client) (md : ContractMeta) : Except Unit PrizePool :=
  match provider with
  | none => Except.error ()
  | some _ => Except.ok { chainId := md.chainId, address := md.address }

/-- createPrizePools (src/src/LinkedPrizePool.ts lines 78 to 90): group the
descriptors by primary pool, find the primary descriptor of each group, look
its provider up and construct the PrizePool.  There is no try/catch here: a
construction failure of one deployment aborts the whole map. -/
def createPrizePools (providers : List (Nat × Client))
    (contracts : List ContractMeta) : Except Unit (List PrizePool) :=
  mapME
    (fun group =>
      match group.find? (fun c => c.ctype = ContractType.YieldSourcePrizePool) with
      | some pp => mkPrizePool (lookupChain providers pp.chainId) pp
      | none => Except.error ())
    (sortContractsByContractTypeAndChildren contracts ContractType.YieldSourcePrizePool)

/-- The LinkedPrizePool aggregate (src/src/LinkedPrizePool.ts lines 33 to
48). -/
structure LinkedPrizePool where
  providers : List (Nat × Client)
  contracts : List ContractMeta
  prizePools : List PrizePool

/-- The all-settle join of the per-network batches (src/src/LinkedPrizePool.ts
lines 117 to 141): one batch per distinct chain id carrying prize pools,
awaited with Promise.allSettled; the fulfilled results are kept and the
rejected ones are logged and dropped. -/
def settledSuccesses (providers : List (Nat × Client))
    (contracts : List ContractMeta) : List (Nat × List (String × String × String)) :=
  ((dedupNat ((getContractsByType contracts ContractType.YieldSourcePrizePool).map
      (fun c => c.chainId))).map
    (fun c => fetchPrizePoolAddresses c (lookupChain providers c)
      (poolsOnChain (getContractsByType contracts ContractType.YieldSourcePrizePool) c))).filterMap
    exceptOk

/-- The augmented registry (src/src/LinkedPrizePool.ts lines 144 to 152):
extend the descriptors with the discovered children and inject synthesized
token descriptors. -/
def assembledRegistry (providers : List (Nat × Client))
    (contracts : List ContractMeta) : List ContractMeta :=
  extendContractsWithToken
    (extendContractWithChildren contracts (settledSuccesses providers contracts))

/-- The top level assembly (src/src/LinkedPrizePool.ts lines 105 to 155,
initializeLinkedPrizePool in the source): filter the primary pool
descriptors, partition them by chain id, issue the per-network batches, await
them with an all-settle join keeping the fulfilled ones, extend the registry
with the discovered children, inject synthesized token descriptors, and build
the aggregate via the LinkedPrizePool constructor. -/
def initLinkedPrizePool (providers : List (Nat × Client))
    (contracts : List ContractMeta) : Except Unit LinkedPrizePool :=
  (createPrizePools providers (assembledRegistry providers contracts)).map (fun ps =>
    { providers := providers, contracts := assembledRegistry providers contracts,
      prizePools := ps })

/-- Whether the per-network batch of chain `c` succeeds in the assembly run
over the given inputs. -/
def chainBatchOk (providers : List (Nat × Client)) (contracts : List ContractMeta)
    (c : Nat) : Bool :=
  isOkE (fetchPrizePoolAddresses c (lookupChain providers c)
    (poolsOnChain (getContractsByType contracts ContractType.YieldSourcePrizePool) c))

/-- initializePrizePools (src/src/PrizePool.ts lines 267 to 284): build one
PrizePool per descriptor tagged ContractType.PrizePool; the construction of
each deployment is wrapped in try/catch, a failure is logged and that one
deployment is skipped. -/
def poolStep (providers : List (Nat × Client)) (acc : List PrizePool)
    (md : ContractMeta) : List PrizePool :=
  match mkPrizePool (lookupChain providers md.chainId) md with
  | Except.ok pool => acc ++ [pool]
  | Except.error _ => acc

def initPrizePools (contracts : List ContractMeta)
    (providers : List (Nat × Client)) : List PrizePool :=
  (getContractsByType contracts ContractType.PrizePool).foldl (poolStep providers) []

/-- The assembly run with the caller descriptor array tracked explicitly.
Every array or object write performed by the source is replayed against the
object it targets there: the pushes at lines 133 and 171 to 179 target arrays
local to one call, the assignment at line 140 targets a local object, the
pushes inside extendContractsWithToken target updatedContracts, the copy made
at line 199, and the list handed to the LinkedPrizePool constructor is a
fresh object built by spread at line 153.  No write targets the caller array,
which therefore passes through every step unchanged and is returned as the
second component. -/
def initLinkedPrizePoolTracked (providers : List (Nat × Client))
    (contracts : List ContractMeta) : Except Unit LinkedPrizePool × List ContractMeta :=
  let callerList := contracts
  let successes := settledSuccesses providers callerList
  let withChildren := extendContractWithChildren callerList successes
  let withToken := extendContractsWithToken withChildren
  ((createPrizePools providers withToken).map (fun ps =>
    { providers := providers, contracts := withToken, prizePools := ps }), callerList)

/-- Number of descriptors with the given chain id and address. -/
def countKey (xs : List ContractMeta) (cid : Nat) (addr : String) : Nat :=
  (xs.filter (fun c => c.chainId = cid ∧ c.address = addr)).length

/-! Scratch sanity checks of the assembly pipeline on concrete inputs. -/

/-- Two primary pool descriptors on networks 1 and 2. -/
def twoChainPools : List ContractMeta :=
  [{ chainId := 1, address := "0xP1", ctype := ContractType.YieldSourcePrizePool },
   { chainId := 2, address := "0xP2", ctype := ContractType.YieldSourcePrizePool }]

example :
    (exceptOk (initLinkedPrizePool [(1, testClient)] twoChainPools)).map
      (fun lp => lp.prizePools.map (fun p => (p.chainId, p.address))) =
    some [(1, "0xP1")] := by decide

example :
    (exceptOk (initLinkedPrizePool [(1, testClient)] twoChainPools)).map
      (fun lp => lp.contracts.map (fun c => (c.chainId, c.address))) =
    some [(1, "0xP1"), (1, "0xTOK"), (1, "0xTIC")] := by decide

/-! ### Lemmas about the batch machinery -/

theorem mapME_ok_of_forall {α β ε : Type} {f : α → Except ε β} {g : α → β} :
    ∀ {xs : List α}, (∀ x ∈ xs, f x = Except.ok (g x)) → mapME f xs = Except.ok (xs.map g)
  | [], _ => rfl
  | x :: xs, h => by
    have hx : f x = Except.ok (g x) := h x (List.mem_cons_self x xs)
    have hxs : mapME f xs = Except.ok (xs.map g) :=
      mapME_ok_of_forall (fun y hy => h y (List.mem_cons_of_mem x hy))
    simp [mapME, hx, hxs]

theorem batchRead_cons {cl : Client} {p : ContractMeta} {ps : List ContractMeta}
    {res : List String} (h : batchRead cl (batchCallsFor (p :: ps)) = Except.ok res) :
    ∃ t k rest, res = t :: k :: rest ∧ cl.tokenOf p.address = Except.ok t ∧
      cl.ticketOf p.address = Except.ok k ∧
      batchRead cl (batchCallsFor ps) = Except.ok rest := by
  have hb : batchCallsFor (p :: ps) =
      (p.address, ReadMethod.token) :: (p.address, ReadMethod.ticket) :: batchCallsFor ps := by
    simp [batchCallsFor]
  rw [hb] at h
  unfold batchRead at h ⊢
  simp only [mapME, execCall] at h
  cases ht : cl.tokenOf p.address with
  | error e => rw [ht] at h; simp at h
  | ok t =>
    rw [ht] at h
    cases hk : cl.ticketOf p.address with
    | error e => rw [hk] at h; simp at h
    | ok k =>
      rw [hk] at h
      cases hr : mapME (execCall cl) (batchCallsFor ps) with
      | error e => rw [hr] at h; simp at h
      | ok rest =>
        rw [hr] at h
        simp only [Except.ok.injEq] at h
        exact ⟨t, k, rest, h.symm, rfl, rfl, rfl⟩

theorem pairAddresses_spec {cl : Client} :
    ∀ (pools : List ContractMeta) (res : List String),
      batchRead cl (batchCallsFor pools) = Except.ok res →
      (pairAddresses pools res).map (fun e => e.1) = pools.map (fun c => c.address) ∧
      ∀ e ∈ pairAddresses pools res,
        cl.tokenOf e.1 = Except.ok e.2.1 ∧ cl.ticketOf e.1 = Except.ok e.2.2
  | [], res, _ => by simp [pairAddresses]
  | p :: ps, res, h => by
    obtain ⟨t, k, rest, hres, ht, hk, hrest⟩ := batchRead_cons h
    subst hres
    have ih := pairAddresses_spec ps rest hrest
    constructor
    · simp [pairAddresses, ih.1]
    · intro e he
      rw [show pairAddresses (p :: ps) (t :: k :: rest) =
            (p.address, t, k) :: pairAddresses ps rest from rfl] at he
      rcases List.mem_cons.mp he with he | he
      · subst he; exact ⟨ht, hk⟩
      · exact ih.2 e he

theorem fetch_ok_provider {cid : Nat} {prov : Option Client} {pools : List ContractMeta}
    {r : Nat × List (String × String × String)}
    (h : fetchPrizePoolAddresses cid prov pools = Except.ok r) : ∃ cl, prov = some cl := by
  cases prov with
  | none => simp [fetchPrizePoolAddresses] at h
  | some cl => exact ⟨cl, rfl⟩

theorem fetch_ok_spec {cid : Nat} {cl : Client} {pools : List ContractMeta}
    {r : Nat × List (String × String × String)}
    (h : fetchPrizePoolAddresses cid (some cl) pools = Except.ok r) :
    r.1 = cid ∧ r.2.map (fun e => e.1) = pools.map (fun c => c.address) ∧
    ∀ e ∈ r.2, cl.tokenOf e.1 = Except.ok e.2.1 ∧ cl.ticketOf e.1 = Except.ok e.2.2 := by
  simp only [fetchPrizePoolAddresses] at h
  cases hb : batchRead cl (batchCallsFor pools) with
  | error e => rw [hb] at h; simp at h
  | ok results =>
    rw [hb] at h
    simp only [Except.ok.injEq] at h
    subst h
    have hp := pairAddresses_spec pools results hb
    exact ⟨rfl, hp.1, hp.2⟩

theorem fetch_ok_fst {cid : Nat} {prov : Option Client} {pools : List ContractMeta}
    {r : Nat × List (String × String × String)}
    (h : fetchPrizePoolAddresses cid prov pools = Except.ok r) : r.1 = cid := by
  obtain ⟨cl, rfl⟩ := fetch_ok_provider h
  exact (fetch_ok_spec h).1

theorem batchCallsFor_length (pools : List ContractMeta) :
    (batchCallsFor pools).length = 2 * pools.length := by
  induction pools with
  | nil => rfl
  | cons p ps ih => simp [batchCallsFor] at ih ⊢; omega

theorem batchCallsFor_getElem :
    ∀ (pools : List ContractMeta) (i : Nat), i < pools.length →
      ∃ c, pools[i]? = some c ∧
        (batchCallsFor pools)[2 * i]? = some (c.address, ReadMethod.token) ∧
        (batchCallsFor pools)[2 * i + 1]? = some (c.address, ReadMethod.ticket)
  | [], i, hi => by simp at hi
  | p :: ps, 0, _ => ⟨p, by simp [batchCallsFor]⟩
  | p :: ps, i + 1, hi => by
    have hi' : i < ps.length := by simpa using hi
    obtain ⟨c, hc, h1, h2⟩ := batchCallsFor_getElem ps i hi'
    refine ⟨c, by simpa using hc, ?_, ?_⟩
    · have : 2 * (i + 1) = 2 * i + 1 + 1 := by omega
      rw [this]
      simpa [batchCallsFor] using h1
    · have : 2 * (i + 1) + 1 = 2 * i + 1 + 1 + 1 := by omega
      rw [this]
      simpa [batchCallsFor] using h2

theorem dedupNat_nodup : ∀ xs : List Nat, (dedupNat xs).Nodup
  | [] => List.nodup_nil
  | c :: rest => by
    by_cases h : c ∈ dedupNat rest
    · simp only [dedupNat, if_pos h]
      exact dedupNat_nodup rest
    · simp only [dedupNat, if_neg h]
      exact List.nodup_cons.mpr ⟨h, dedupNat_nodup rest⟩

theorem mem_dedupNat {a : Nat} : ∀ {xs : List Nat}, a ∈ dedupNat xs ↔ a ∈ xs
  | [] => by simp [dedupNat]
  | c :: rest => by
    by_cases h : c ∈ dedupNat rest
    · simp only [dedupNat, if_pos h, List.mem_cons]
      rw [mem_dedupNat]
      constructor
      · exact Or.inr
      · rintro (rfl | ha)
        · exact mem_dedupNat.mp h
        · exact ha
    · simp only [dedupNat, if_neg h, List.mem_cons]
      rw [mem_dedupNat]

/-! ### Claim C7 -/

/-- Claim C7 (confirmed): for each network, the assembler issues one batched
read whose call list has exactly two calls per prize pool of the network, the
token read then the ticket read at positions 2i and 2i+1; a successful batch
result is keyed by exactly the prize pool addresses of the request, in order,
and maps each pool to the token and ticket addresses the chain client
delivered for it.  The networks iterated by the assembly are pairwise
distinct, so there is exactly one batch per network. -/
theorem batch_two_calls_per_pool (cl : Client) (cid : Nat) (pools : List ContractMeta) :
    (batchCallsFor pools).length = 2 * pools.length ∧
    (∀ i, i < pools.length → ∃ c, pools[i]? = some c ∧
      (batchCallsFor pools)[2 * i]? = some (c.address, ReadMethod.token) ∧
      (batchCallsFor pools)[2 * i + 1]? = some (c.address, ReadMethod.ticket)) ∧
    (∀ r, fetchPrizePoolAddresses cid (some cl) pools = Except.ok r →
      r.1 = cid ∧ r.2.map (fun e => e.1) = pools.map (fun c => c.address) ∧
      ∀ e ∈ r.2, cl.tokenOf e.1 = Except.ok e.2.1 ∧ cl.ticketOf e.1 = Except.ok e.2.2) ∧
    (∀ xs : List Nat, (dedupNat xs).Nodup) :=
  ⟨batchCallsFor_length pools, batchCallsFor_getElem pools,
    fun _ h => fetch_ok_spec h, dedupNat_nodup⟩

/-! ### Lemmas for the partial-failure aggregation -/

theorem isOkE_true_iff {ε α : Type} {e : Except ε α} :
    isOkE e = true ↔ ∃ a, e = Except.ok a := by
  cases e <;> simp [isOkE]

theorem lookupChain_cons_eq {α : Type} {e : Nat × α} {xs : List (Nat × α)} {c : Nat}
    (h : e.1 = c) : lookupChain (e :: xs) c = some e.2 := by
  unfold lookupChain
  rw [List.find?_cons_of_pos _ (by simp [h])]
  rfl

theorem lookupChain_cons_ne {α : Type} {e : Nat × α} {xs : List (Nat × α)} {c : Nat}
    (h : e.1 ≠ c) : lookupChain (e :: xs) c = lookupChain xs c := by
  unfold lookupChain
  rw [List.find?_cons_of_neg _ (by simp [h])]

theorem lookup_settled_some {β : Type} (f : Nat → Except Unit (Nat × β))
    (hkey : ∀ c r, f c = Except.ok r → r.1 = c) :
    ∀ (cids : List Nat) (c : Nat) (r : Nat × β), c ∈ cids → f c = Except.ok r →
      lookupChain ((cids.map f).filterMap exceptOk) c = some r.2 := by
  intro cids
  induction cids with
  | nil => intro c r hc _; simp at hc
  | cons x rest ih =>
    intro c r hc hr
    simp only [List.map_cons, List.filterMap_cons]
    cases hfx : f x with
    | ok rx =>
      simp only [exceptOk]
      by_cases hxc : x = c
      · subst hxc
        have hrr : rx = r := by
          have := hfx.symm.trans hr
          simpa using this
        rw [lookupChain_cons_eq (hkey x rx hfx), hrr]
      · have hrx1 : rx.1 = x := hkey x rx hfx
        have hc' : c ∈ rest := by
          rcases List.mem_cons.mp hc with h | h
          · exact absurd h.symm hxc
          · exact h
        rw [lookupChain_cons_ne (by rw [hrx1]; exact hxc)]
        exact ih c r hc' hr
    | error e =>
      simp only [exceptOk]
      by_cases hxc : x = c
      · subst hxc
        rw [hfx] at hr
        cases hr
      · have hc' : c ∈ rest := by
          rcases List.mem_cons.mp hc with h | h
          · exact absurd h.symm hxc
          · exact h
        exact ih c r hc' hr

theorem lookup_settled_none {β : Type} (f : Nat → Except Unit (Nat × β))
    (hkey : ∀ c r, f c = Except.ok r → r.1 = c) :
    ∀ (cids : List Nat) (c : Nat), isOkE (f c) = false →
      lookupChain ((cids.map f).filterMap exceptOk) c = none := by
  intro cids
  induction cids with
  | nil => intro c _; simp [lookupChain]
  | cons x rest ih =>
    intro c hc
    simp only [List.map_cons, List.filterMap_cons]
    cases hfx : f x with
    | ok rx =>
      simp only [exceptOk]
      have hxc : rx.1 ≠ c := by
        intro h
        have hx : rx.1 = x := hkey x rx hfx
        rw [hx] at h
        subst h
        rw [hfx] at hc
        simp [isOkE] at hc
      rw [lookupChain_cons_ne hxc]
      exact ih c hc
    | error e =>
      simp only [exceptOk]
      exact ih c hc

theorem childrenFor_keys {byChain : List (Nat × List (String × String × String))}
    {d d' : ContractMeta} (h : childrenFor byChain d = some d') :
    d'.chainId = d.chainId ∧ d'.address = d.address ∧ d'.ctype = d.ctype := by
  unfold childrenFor at h
  split at h
  · cases h
  · split at h
    · cases h
    · cases h
      exact ⟨rfl, rfl, rfl⟩

theorem childrenFor_none_of {byChain : List (Nat × List (String × String × String))}
    {d : ContractMeta} (hl : lookupChain byChain d.chainId = none) :
    childrenFor byChain d = none := by
  unfold childrenFor
  split
  · rfl
  · next entries h2 => rw [hl] at h2; cases h2

theorem childrenFor_isSome_of {byChain : List (Nat × List (String × String × String))}
    {d : ContractMeta} {entries : List (String × String × String)}
    (hl : lookupChain byChain d.chainId = some entries)
    (e : String × String × String) (he : e ∈ entries) (he1 : e.1 = d.address) :
    (childrenFor byChain d).isSome = true := by
  unfold childrenFor
  split
  · next h1 => rw [h1] at hl; cases hl
  · next entries' h2 =>
    have hee : entries' = entries := by rw [h2] at hl; injection hl
    subst hee
    split
    · next h3 =>
      exfalso
      have := List.find?_eq_none.mp h3 e he
      simp [he1] at this
    · next e0 h4 => rfl

theorem getByType_extend (byChain : List (Nat × List (String × String × String))) :
    ∀ contracts : List ContractMeta,
      getContractsByType (extendContractWithChildren contracts byChain)
          ContractType.YieldSourcePrizePool =
        (getContractsByType contracts ContractType.YieldSourcePrizePool).filterMap
          (childrenFor byChain)
  | [] => rfl
  | d :: rest => by
    have ih := getByType_extend byChain rest
    by_cases hd : d.ctype = ContractType.YieldSourcePrizePool
    · cases hc : childrenFor byChain d with
      | none =>
        simp only [extendContractWithChildren, getContractsByType, List.filterMap_cons,
          if_pos hd, hc] at ih ⊢
        simpa [List.filter_cons, hd, hc] using ih
      | some d' =>
        have hd' : d'.ctype = ContractType.YieldSourcePrizePool :=
          (childrenFor_keys hc).2.2.trans hd
        simp only [extendContractWithChildren, getContractsByType, List.filterMap_cons,
          if_pos hd, hc] at ih ⊢
        simpa [List.filter_cons, hd, hd', hc] using ih
    · simp only [extendContractWithChildren, getContractsByType, List.filterMap_cons,
        if_neg hd] at ih ⊢
      simpa [List.filter_cons, hd] using ih

theorem tokenStep_append (contracts : List ContractMeta) :
    ∀ (tks : List (Nat × String)) (acc : List ContractMeta),
      ∃ ys, tks.foldl (tokenStep contracts) acc = acc ++ ys ∧
        ∀ y ∈ ys, y.ctype = ContractType.Token
  | [], acc => ⟨[], by simp⟩
  | tk :: tks, acc => by
    obtain ⟨ys, hys, hall⟩ := tokenStep_append contracts tks (tokenStep contracts acc tk)
    simp only [List.foldl_cons]
    cases hf : contracts.find? (fun c => c.address = tk.2 ∧ c.chainId = tk.1) with
    | some c0 =>
      refine ⟨ys, ?_, hall⟩
      rw [hys]
      unfold tokenStep
      rw [hf]
    | none =>
      refine ⟨createTokenContract tk.1 tk.2 :: ys, ?_, ?_⟩
      · rw [hys]
        unfold tokenStep
        rw [hf]
        simp
      · intro y hy
        rcases List.mem_cons.mp hy with rfl | hy
        · rfl
        · exact hall y hy

theorem extendTokens_append (xs : List ContractMeta) :
    ∃ ys, extendContractsWithToken xs = xs ++ ys ∧
      ∀ y ∈ ys, y.ctype = ContractType.Token := by
  unfold extendContractsWithToken
  exact tokenStep_append xs _ xs

theorem getByType_append_no_prims {xs ys : List ContractMeta}
    (h : ∀ y ∈ ys, y.ctype = ContractType.Token) :
    getContractsByType (xs ++ ys) ContractType.YieldSourcePrizePool =
      getContractsByType xs ContractType.YieldSourcePrizePool := by
  unfold getContractsByType
  rw [List.filter_append]
  have : ys.filter (fun c => decide (c.ctype = ContractType.YieldSourcePrizePool)) = [] := by
    rw [List.filter_eq_nil_iff]
    intro y hy
    simp [h y hy]
  rw [this, List.append_nil]

theorem filterMap_key_eq :
    ∀ {xs : List ContractMeta} {f : ContractMeta → Option ContractMeta}
      {q : ContractMeta → Bool},
      (∀ d ∈ xs, (∀ d', f d = some d' → (d'.chainId, d'.address) = (d.chainId, d.address)) ∧
        ((f d).isSome = true ↔ q d = true)) →
      (xs.filterMap f).map (fun d => (d.chainId, d.address)) =
        (xs.filter q).map (fun d => (d.chainId, d.address))
  | [], _, _, _ => rfl
  | d :: rest, f, q, h => by
    have hd := h d (List.mem_cons_self d rest)
    have ih := filterMap_key_eq (fun x hx => h x (List.mem_cons_of_mem d hx))
    cases hfd : f d with
    | some d' =>
      have hq : q d = true := hd.2.mp (by simp [hfd])
      simp only [List.filterMap_cons, hfd, List.filter_cons, hq, if_pos]
      simp only [List.map_cons, ih, hd.1 d' hfd]
    | none =>
      have hq : q d = false := by
        cases hqd : q d
        · rfl
        · have := hd.2.mpr hqd
          rw [hfd] at this
          simp at this
      simp only [List.filterMap_cons, hfd, List.filter_cons, hq]
      simpa using ih

theorem mapME_map {α β γ ε : Type} (f : β → Except ε γ) (m : α → β) :
    ∀ xs : List α, mapME f (xs.map m) = mapME (fun x => f (m x)) xs
  | [] => rfl
  | x :: xs => by
    simp only [List.map_cons, mapME]
    rw [mapME_map f m xs]

theorem createPrizePools_ok {providers : List (Nat × Client)} {xs : List ContractMeta}
    (hall : ∀ p ∈ getContractsByType xs ContractType.YieldSourcePrizePool,
      (lookupChain providers p.chainId).isSome = true) :
    createPrizePools providers xs =
      Except.ok ((getContractsByType xs ContractType.YieldSourcePrizePool).map
        (fun p => { chainId := p.chainId, address := p.address : PrizePool })) := by
  unfold createPrizePools sortContractsByContractTypeAndChildren
  rw [mapME_map]
  apply mapME_ok_of_forall
  intro p hp
  have hpt : p.ctype = ContractType.YieldSourcePrizePool := by
    have := List.mem_filter.mp hp
    simpa using this.2
  have hfind :
      (p :: (p.children.getD []).filterMap (fun tk =>
          xs.find? (fun c => c.chainId = tk.1 ∧ c.address = tk.2))).find?
        (fun c => decide (c.ctype = ContractType.YieldSourcePrizePool)) = some p :=
    List.find?_cons_of_pos _ (by simp [hpt])
  obtain ⟨cl, hcl⟩ := Option.isSome_iff_exists.mp (hall p hp)
  simp only [hfind, mkPrizePool, hcl]

theorem batch_two_calls_per_pool_witness :
    (∃ c, twoChainPools[0]? = some c ∧
      (batchCallsFor twoChainPools)[0]? = some (c.address, ReadMethod.token) ∧
      (batchCallsFor twoChainPools)[1]? = some (c.address, ReadMethod.ticket)) ∧
    ((1, [("0xP1", "0xTOK", "0xTIC"), ("0xP2", "0xTOK", "0xTIC")]) :
        Nat × List (String × String × String)).2.map (fun e => e.1) =
      twoChainPools.map (fun c => c.address) := by
  constructor
  · have h := (batch_two_calls_per_pool testClient 1 twoChainPools).2.1 0 (by decide)
    simpa using h
  · exact ((batch_two_calls_per_pool testClient 1 twoChainPools).2.2.1
      (1, [("0xP1", "0xTOK", "0xTIC"), ("0xP2", "0xTOK", "0xTIC")]) (by decide)).2.1

/-! ### Claim C2 -/

/-- Claim C2 (confirmed): assembling the linked pool never throws, and the
resulting aggregate holds exactly one pool handle per primary pool descriptor
of a network whose batched discovery read succeeded, in registry order, and no
handle for any deployment of a network whose batch failed. -/
theorem assembly_tolerates_batch_failures (providers : List (Nat × Client))
    (contracts : List ContractMeta) :
    ∃ lp, initLinkedPrizePool providers contracts = Except.ok lp ∧
      lp.prizePools.map (fun p => (p.chainId, p.address)) =
        ((getContractsByType contracts ContractType.YieldSourcePrizePool).filter
          (fun d => chainBatchOk providers contracts d.chainId)).map
          (fun d => (d.chainId, d.address)) := by
  have hkey : ∀ c r, fetchPrizePoolAddresses c (lookupChain providers c)
      (poolsOnChain (getContractsByType contracts ContractType.YieldSourcePrizePool) c) =
        Except.ok r → r.1 = c :=
    fun c r h => fetch_ok_fst h
  have hsurv : ∀ d ∈ getContractsByType contracts ContractType.YieldSourcePrizePool,
      (∀ d', childrenFor (settledSuccesses providers contracts) d = some d' →
        (d'.chainId, d'.address) = (d.chainId, d.address)) ∧
      ((childrenFor (settledSuccesses providers contracts) d).isSome = true ↔
        chainBatchOk providers contracts d.chainId = true) := by
    intro d hd
    constructor
    · intro d' hd'
      have hk := childrenFor_keys hd'
      simp [hk.1, hk.2.1]
    · constructor
      · intro hs
        by_cases hok : chainBatchOk providers contracts d.chainId = true
        · exact hok
        · exfalso
          have hok' : isOkE (fetchPrizePoolAddresses d.chainId
              (lookupChain providers d.chainId)
              (poolsOnChain (getContractsByType contracts ContractType.YieldSourcePrizePool)
                d.chainId)) = false := by
            have : chainBatchOk providers contracts d.chainId = false :=
              Bool.eq_false_iff.mpr hok
            exact this
          have hnone : lookupChain (settledSuccesses providers contracts) d.chainId = none :=
            lookup_settled_none _ hkey _ d.chainId hok'
          rw [childrenFor_none_of hnone] at hs
          cases hs
      · intro hok
        have hok' : isOkE (fetchPrizePoolAddresses d.chainId (lookupChain providers d.chainId)
            (poolsOnChain (getContractsByType contracts ContractType.YieldSourcePrizePool)
              d.chainId)) = true := hok
        obtain ⟨r, hr⟩ := isOkE_true_iff.mp hok'
        have hmem : d.chainId ∈ dedupNat
            ((getContractsByType contracts ContractType.YieldSourcePrizePool).map
              (fun c => c.chainId)) :=
          mem_dedupNat.mpr (List.mem_map_of_mem _ hd)
        have hlook : lookupChain (settledSuccesses providers contracts) d.chainId = some r.2 :=
          lookup_settled_some _ hkey _ d.chainId r hmem hr
        obtain ⟨cl, hcl⟩ := fetch_ok_provider hr
        rw [hcl] at hr
        have hspec := fetch_ok_spec hr
        have hdp : d ∈ poolsOnChain
            (getContractsByType contracts ContractType.YieldSourcePrizePool) d.chainId := by
          unfold poolsOnChain
          exact List.mem_filter.mpr ⟨hd, by simp⟩
        have haddr : d.address ∈ r.2.map (fun e => e.1) := by
          rw [hspec.2.1]
          exact List.mem_map_of_mem _ hdp
        obtain ⟨e, he, he1⟩ := List.mem_map.mp haddr
        exact childrenFor_isSome_of hlook e he he1
  have hprimsWT : getContractsByType (assembledRegistry providers contracts)
      ContractType.YieldSourcePrizePool =
      (getContractsByType contracts ContractType.YieldSourcePrizePool).filterMap
        (childrenFor (settledSuccesses providers contracts)) := by
    obtain ⟨ys, hys, hTok⟩ := extendTokens_append
      (extendContractWithChildren contracts (settledSuccesses providers contracts))
    unfold assembledRegistry
    rw [hys, getByType_append_no_prims hTok, getByType_extend]
  have hall : ∀ p ∈ getContractsByType (assembledRegistry providers contracts)
      ContractType.YieldSourcePrizePool, (lookupChain providers p.chainId).isSome = true := by
    rw [hprimsWT]
    intro p hp
    obtain ⟨d, hd, hfd⟩ := List.mem_filterMap.mp hp
    have hkeys := childrenFor_keys hfd
    have hok : chainBatchOk providers contracts d.chainId = true :=
      ((hsurv d hd).2).mp (by simp [hfd])
    have hok' : isOkE (fetchPrizePoolAddresses d.chainId (lookupChain providers d.chainId)
        (poolsOnChain (getContractsByType contracts ContractType.YieldSourcePrizePool)
          d.chainId)) = true := hok
    obtain ⟨r, hr⟩ := isOkE_true_iff.mp hok'
    obtain ⟨cl, hcl⟩ := fetch_ok_provider hr
    rw [hkeys.1, hcl]
    rfl
  have hpools := createPrizePools_ok hall
  refine ⟨⟨providers, assembledRegistry providers contracts,
    (getContractsByType (assembledRegistry providers contracts)
      ContractType.YieldSourcePrizePool).map
        (fun p => { chainId := p.chainId, address := p.address })⟩, ?_, ?_⟩
  · unfold initLinkedPrizePool
    rw [hpools]
    rfl
  · show ((getContractsByType (assembledRegistry providers contracts)
        ContractType.YieldSourcePrizePool).map
          (fun p => ({ chainId := p.chainId, address := p.address } : PrizePool))).map
        (fun p => (p.chainId, p.address)) = _
    rw [List.map_map, hprimsWT]
    exact filterMap_key_eq hsurv

/-! ### Claim C4 -/

/-- Two primary pool descriptors on the same network; against testClient both
resolve the same token address 0xTOK. -/
def twoPoolsOneChain : List ContractMeta :=
  [{ chainId := 1, address := "0xP1", ctype := ContractType.YieldSourcePrizePool },
   { chainId := 1, address := "0xP2", ctype := ContractType.YieldSourcePrizePool }]

/-- Claim C4 counterexample: when two primary pools on the same network share
a token address that is absent from the input registry, the assembly
synthesizes one token descriptor per child reference, so the augmented
registry of the assembled linked pool contains two descriptors for the pair
(1, 0xTOK): the duplicate check of extendContractsWithToken searches only the
original input list, never the list being extended. -/
theorem token_dedup_cex :
    testClient.tokenOf "0xP1" = Except.ok "0xTOK" ∧
    testClient.tokenOf "0xP2" = Except.ok "0xTOK" ∧
    countKey twoPoolsOneChain 1 "0xTOK" = 0 ∧
    (exceptOk (initLinkedPrizePool [(1, testClient)] twoPoolsOneChain)).map
      (fun lp => countKey lp.contracts 1 "0xTOK") = some 2 := by
  refine ⟨rfl, rfl, by decide, by decide⟩

theorem countKey_foldl (contracts : List ContractMeta) (cid : Nat) (addr : String)
    (hpresent : ∃ c ∈ contracts, c.chainId = cid ∧ c.address = addr) :
    ∀ (tks : List (Nat × String)) (acc : List ContractMeta),
      countKey (tks.foldl (tokenStep contracts) acc) cid addr = countKey acc cid addr := by
  intro tks
  induction tks with
  | nil => intro acc; rfl
  | cons tk tks ih =>
    intro acc
    simp only [List.foldl_cons]
    rw [ih (tokenStep contracts acc tk)]
    unfold tokenStep
    cases hf : contracts.find? (fun c => c.address = tk.2 ∧ c.chainId = tk.1) with
    | some c0 => rfl
    | none =>
      have hne : ¬(tk.1 = cid ∧ tk.2 = addr) := by
        rintro ⟨h1, h2⟩
        obtain ⟨c, hc, hk1, hk2⟩ := hpresent
        have := List.find?_eq_none.mp hf c hc
        apply this
        simp [hk1, hk2, h1, h2]
      unfold countKey
      rw [List.filter_append]
      have hnil : ([createTokenContract tk.1 tk.2].filter
          (fun c => decide (c.chainId = cid ∧ c.address = addr))) = [] := by
        rw [List.filter_eq_nil_iff]
        intro a ha
        rw [List.mem_singleton.mp ha]
        simpa [createTokenContract] using hne
      rw [hnil, List.append_nil]

/-- Claim C4 (corrected): a synthesized token descriptor is deduplicated only
against the original input list: for a (networkId, address) pair already
present in the input, the augmentation adds no descriptor with that pair, but
two child references to the same pair absent from the input each synthesize a
descriptor, so the augmented registry can contain duplicates. -/
theorem token_dedup_amended (contracts : List ContractMeta) (cid : Nat) (addr : String)
    (hpresent : ∃ c ∈ contracts, c.chainId = cid ∧ c.address = addr) :
    countKey (extendContractsWithToken contracts) cid addr = countKey contracts cid addr := by
  unfold extendContractsWithToken
  exact countKey_foldl contracts cid addr hpresent _ contracts

/-- A registry that already catalogues the token referenced by its pool. -/
def presList : List ContractMeta :=
  [{ chainId := 1, address := "0xTOK", ctype := ContractType.Token },
   { chainId := 1, address := "0xP1", ctype := ContractType.YieldSourcePrizePool,
     children := some [(1, "0xTOK")] }]

theorem token_dedup_amended_witness :
    countKey (extendContractsWithToken presList) 1 "0xTOK" = countKey presList 1 "0xTOK" :=
  token_dedup_amended presList 1 "0xTOK" (by decide)

/-! ### Claim C8 -/

/-- Claim C8 counterexample: with a provider for network 1 only, building the
pool set through createPrizePools for one pool on network 1 and one on
network 2 aborts as a whole with an error, returning no handles, even though
the network 1 deployment on its own constructs fine: createPrizePools has no
per-deployment try/catch. -/
theorem pool_build_abort_cex :
    createPrizePools [(1, testClient)] twoChainPools = Except.error () ∧
    mkPrizePool (lookupChain [(1, testClient)] 1)
        { chainId := 1, address := "0xP1", ctype := ContractType.YieldSourcePrizePool } =
      Except.ok { chainId := 1, address := "0xP1" } := by
  constructor
  · decide
  · decide

theorem poolStep_foldl (providers : List (Nat × Client)) :
    ∀ (mds : List ContractMeta) (acc : List PrizePool),
      (mds.foldl (poolStep providers) acc).map (fun p => (p.chainId, p.address)) =
        acc.map (fun p => (p.chainId, p.address)) ++
          (mds.filter (fun md => (lookupChain providers md.chainId).isSome)).map
            (fun md => (md.chainId, md.address)) := by
  intro mds
  induction mds with
  | nil => intro acc; simp
  | cons md mds ih =>
    intro acc
    simp only [List.foldl_cons]
    rw [ih (poolStep providers acc md)]
    cases hl : lookupChain providers md.chainId with
    | some cl =>
      have hstep : poolStep providers acc md =
          acc ++ [({ chainId := md.chainId, address := md.address } : PrizePool)] := by
        unfold poolStep mkPrizePool
        rw [hl]
      rw [hstep]
      simp [List.filter_cons, hl]
    | none =>
      have hstep : poolStep providers acc md = acc := by
        unfold poolStep mkPrizePool
        rw [hl]
      rw [hstep]
      simp [List.filter_cons, hl]

/-- Claim C8 (corrected): initializePrizePools (PrizePool.ts) catches the
construction failure of each individual deployment, skips exactly the
deployments whose network has no client, and returns handles for all
successfully constructed deployments in order, never aborting; but
createPrizePools (LinkedPrizePool.ts), the builder used by the linked pool
aggregate, has no such catch, and an individual construction failure there
aborts the whole build. -/
theorem pool_build_skips_failures (contracts : List ContractMeta)
    (providers : List (Nat × Client)) :
    (initPrizePools contracts providers).map (fun p => (p.chainId, p.address)) =
      ((getContractsByType contracts ContractType.PrizePool).filter
        (fun md => (lookupChain providers md.chainId).isSome)).map
        (fun md => (md.chainId, md.address)) := by
  unfold initPrizePools
  rw [poolStep_foldl]
  rfl

/-! ### Claim C9 -/

/-- Claim C9 (confirmed): the assembly never mutates the caller descriptor
list: the tracked run returns the caller array unchanged next to the very
result of the untracked assembly, and the in-place augmentation of
extendContractsWithToken only appends synthesized descriptors to the copy, so
every extended list starts with the list it extends, element for element. -/
theorem input_registry_never_mutated (providers : List (Nat × Client))
    (contracts : List ContractMeta) :
    (initLinkedPrizePoolTracked providers contracts).2 = contracts ∧
    (initLinkedPrizePoolTracked providers contracts).1 =
      initLinkedPrizePool providers contracts ∧
    ∀ xs : List ContractMeta, ∃ ys, extendContractsWithToken xs = xs ++ ys := by
  refine ⟨rfl, rfl, ?_⟩
  intro xs
  obtain ⟨ys, hys, _⟩ := extendTokens_append xs
  exact ⟨ys, hys⟩

end V4
